import Mathlib

/-!
Verification of the invoice-collection-and-consolidation pipeline in
`api/generate-pdf.js` (and its companion form `frontend/src/App.js`).

The JavaScript source is shallowly embedded: every function of the pipeline
core is translated into an executable Lean definition, with the external
world (billing provider, filesystem, network success/failure) supplied as
explicit parameters.  Machine arithmetic is modelled with `Int`/`Nat`;
JavaScript's `Math.floor` on exact millisecond values is `Int` division with
positive divisor (Euclidean = floor for positive divisors).
-/

namespace StripePay

/-! ## JavaScript value model for the request body

`req.body` fields may be absent (`undefined`), strings, or JSON numbers.
Only those three shapes can reach the handler from the companion form. -/

inductive JSVal where
  | undef : JSVal
  | vStr : String → JSVal
  | vNum : Int → JSVal
deriving DecidableEq, Repr

/-- JavaScript `ToBoolean` (truthiness) restricted to the value shapes above:
`undefined` is falsy, a string is truthy iff non-empty, a number is truthy
iff non-zero.  This is what `!year || !month || !email` applies. -/
def truthy : JSVal → Bool
  | .undef => false
  | .vStr s => decide (s ≠ "")
  | .vNum n => decide (n ≠ 0)

/-- JavaScript `ToString` for the value shapes above (`undefined` stringifies
to `"undefined"`, an integer number to its decimal representation). -/
def jsToString : JSVal → String
  | .undef => "undefined"
  | .vStr s => s
  | .vNum n => toString n

/-- Numeric value of a list of decimal digit characters. -/
def digitsToNat (cs : List Char) : Nat :=
  cs.foldl (fun a c => a * 10 + (c.toNat - 48)) 0

/-- The digit-prefix step of `parseInt`: take the longest leading run of
decimal digits; if it is empty the parse is `NaN` (here `none`). -/
def parseDigits (cs : List Char) : Option Nat :=
  let ds := cs.takeWhile Char.isDigit
  if ds.isEmpty then none else some (digitsToNat ds)

/-- JavaScript `parseInt(s, 10)`: skip leading whitespace, consume an
optional sign, then the longest decimal-digit prefix; `NaN` (`none`) when no
digit follows. -/
def parseIntString (s : String) : Option Int :=
  let cs := s.toList.dropWhile (fun c => c = ' ' ∨ c = '\t' ∨ c = '\n' ∨ c = '\r')
  match cs with
  | '-' :: rest => (parseDigits rest).map (fun n => -(n : Int))
  | '+' :: rest => (parseDigits rest).map (fun n => (n : Int))
  | rest => (parseDigits rest).map (fun n => (n : Int))

/-- JavaScript `parseInt(v, 10)` as the handler applies it to a body field:
the value is first converted to a string. -/
def parseIntJS (v : JSVal) : Option Int :=
  parseIntString (jsToString v)

/-! ## The HTTP handler's validation gate (`module.exports`, lines 194-210)

The handler's observable control flow up to the point where the pipeline
starts: 405 on non-POST, 400 "required" when a field is falsy, 400 "invalid"
when `parseInt` yields `NaN` for year or month, otherwise the pipeline runs
with `parsedYear` and the zero-indexed `parsedMonth`. -/

inductive HandlerResult where
  | methodNotAllowed : HandlerResult
  | missingFields : HandlerResult
  | invalidYearMonth : HandlerResult
  | pipelineStarted (parsedYear parsedMonth : Int) (email : JSVal) : HandlerResult
deriving DecidableEq, Repr

/-- The validation gate of `module.exports` in `api/generate-pdf.js`:
method check, truthiness check on the three fields, `parseInt` with the
`isNaN` check (`parsedMonth` is `parseInt(month, 10) - 1`). -/
def handleRequest (method : String) (year month email : JSVal) : HandlerResult :=
  if method ≠ "POST" then .methodNotAllowed
  else if ¬ truthy year ∨ ¬ truthy month ∨ ¬ truthy email then .missingFields
  else
    match parseIntJS year, parseIntJS month with
    | some py, some pm => .pipelineStarted py (pm - 1) email
    | _, _ => .invalidYearMonth

/-! ## Date-range computation (`module.exports`, lines 227-228)

`startDate` and `endDate` are built by `new Date(...)` from local-time civil
components, so the embedding models the ECMA-262 `Date` constructor: field
normalization (`MakeDay`), the two-digit-year rule (a year in 0..99 means
1900 + year), and `getTime()` relative to a fixed-offset local time zone.
All divisions below have positive literal divisors, where Lean's `Int`
division coincides with the floor division used by ECMA-262. -/

/-- Days since the Unix epoch of the civil date `y-m-d` (proleptic
Gregorian, `m` 1-based in 1..12; `d` may be any integer, day 0 meaning the
day before day 1).  Standard era-based civil-calendar arithmetic. -/
def daysFromCivil (y m d : Int) : Int :=
  let yr := if m ≤ 2 then y - 1 else y
  let era := yr / 400
  let yoe := yr - era * 400
  let mp := (m + 9) % 12
  let doy := (153 * mp + 2) / 5 + (d - 1)
  let doe := yoe * 365 + yoe / 4 - yoe / 100 + doy
  era * 146097 + doe - 719468

/-- ECMA-262 `MakeDay` composed with the `Date` constructor's two-digit-year
rule: a year in 0..99 is read as 1900 + year; the 0-based month `mo` is
normalized into the year by floor division; the day is passed through
(day 0 is the last day of the previous month). -/
def jsMakeDay (y mo d : Int) : Int :=
  let yr := if 0 ≤ y ∧ y ≤ 99 then 1900 + y else y
  daysFromCivil (yr + mo / 12) ((mo % 12) + 1) d

/-- Local-time milliseconds of `new Date(y, mo, d, h, mi, s, ms)` with
0-based month `mo`. -/
def jsDateLocalMs (y mo d h mi s ms : Int) : Int :=
  jsMakeDay y mo d * 86400000 + h * 3600000 + mi * 60000 + s * 1000 + ms

/-- Result of `getTime()` on a `Date` built from local-time components, for
a server whose local time zone is a fixed offset of `tz` seconds east of UTC
(UTC instant = local reading − tz). -/
def jsGetTime (tz y mo d h mi s ms : Int) : Int :=
  jsDateLocalMs y mo d h mi s ms - tz * 1000

/-- Line 227: `Math.floor(new Date(parsedYear, parsedMonth, 1).getTime() / 1000)`
(`pm` is the handler's zero-indexed `parsedMonth`). -/
def startDate (tz py pm : Int) : Int :=
  jsGetTime tz py pm 1 0 0 0 0 / 1000

/-- Line 228:
`Math.floor(new Date(parsedYear, parsedMonth + 1, 0, 23, 59, 59, 999).getTime() / 1000)`. -/
def endDate (tz py pm : Int) : Int :=
  jsGetTime tz py (pm + 1) 0 23 59 59 999 / 1000

/-- Number of days in the 1-based month `m` of year `y` (proleptic
Gregorian), for stating what "the month's last day" means. -/
def daysInMonth (y m : Int) : Int :=
  if m = 2 then (if (y % 4 = 0 ∧ ¬ y % 100 = 0) ∨ y % 400 = 0 then 29 else 28)
  else if m = 4 ∨ m = 6 ∨ m = 9 ∨ m = 11 then 30 else 31

/-- Specification-side definition (the claim's words, not the code's): the
Unix-epoch second at which a clock in a fixed-offset local time zone of `tz`
seconds east of UTC reads civil time `y-m-d h:mi:s`. -/
def localCivilSec (tz y m d h mi s : Int) : Int :=
  daysFromCivil y m d * 86400 + h * 3600 + mi * 60 + s - tz

/-! ## Directory Stager (`clearDirectory`, lines 32-45)

The filesystem subtree at a path is a tree of files and directories; the
state of the target path is `Option FsEntry` (`none` when the path does not
exist).  `Except Unit` models a thrown filesystem error: `readdirSync`
throws when the path is not a directory. -/

inductive FsEntry where
  | file : Nat → FsEntry
  | dir : List (String × FsEntry) → FsEntry
deriving Repr

mutual
/-- Lines 32-45 of `api/generate-pdf.js`: if the path exists, list it
(throwing when it is a file), clear each child (recursing into
subdirectories, unlinking files), remove the directory recursively, and
recreate it empty; if the path does not exist, just create it. -/
def clearDirectory : Option FsEntry → Except Unit (Option FsEntry)
  | none => .ok (some (.dir []))
  | some (.file _) => .error ()
  | some (.dir cs) =>
      match clearLoop cs with
      | .error e => .error e
      | .ok _ => .ok (some (.dir []))

/-- The `forEach` over `readdirSync`'s listing: a subdirectory is cleared
recursively and keeps whatever state `clearDirectory` leaves it in; a plain
file is `unlinkSync`-ed out of the listing. -/
def clearLoop : List (String × FsEntry) → Except Unit (List (String × FsEntry))
  | [] => .ok []
  | (_, .file _) :: rest => clearLoop rest
  | (n, .dir cs) :: rest =>
      match clearDirectory (some (.dir cs)) with
      | .error e => .error e
      | .ok none => clearLoop rest
      | .ok (some e) =>
          match clearLoop rest with
          | .error e2 => .error e2
          | .ok rest2 => .ok ((n, e) :: rest2)
end

/-! ## Invoice Lister (`getInvoicesList`, lines 124-165)

The provider is a function from the pagination cursor (`starting_after`,
absent on the first call) to the page it returns.  A page's `data` may be
missing (`none`) or an array; `has_more` drives the `do/while`.  The
unbounded `do/while` is embedded with explicit fuel: `none` means the fuel
ran out before the provider stopped. -/

structure Invoice where
  id : String
  number : String
  status : String
  invoice_pdf : Option String
  amount_paid : Int
  amount_due : Int
deriving DecidableEq, Repr

structure PdfLink where
  invoice_pdf : Option String
  invoice_number : String
  amount_paid : Int
  amount_due : Int
deriving DecidableEq, Repr

/-- Lines 143-148: the projection of one invoice to the fields the pipeline
keeps. -/
def mkPdfLink (i : Invoice) : PdfLink :=
  ⟨i.invoice_pdf, i.number, i.amount_paid, i.amount_due⟩

/-- Line 150: `["paid", "open"].includes(invoice.status)`. -/
def isPaidOrOpen (i : Invoice) : Bool :=
  decide (i.status = "paid" ∨ i.status = "open")

structure Page where
  data : Option (List Invoice)
  has_more : Bool

/-- Lines 142-155: the `forEach` over one page's `data`, pushing each
invoice's link onto the end of the matching category list. -/
def processPage : List Invoice → List PdfLink × List PdfLink → List PdfLink × List PdfLink
  | [], acc => acc
  | i :: rest, (paid, other) =>
      if isPaidOrOpen i then processPage rest (paid ++ [mkPdfLink i], other)
      else processPage rest (paid, other ++ [mkPdfLink i])

/-- Lines 131-158: the `do/while` pagination loop.  A page with missing or
empty `data` breaks out (lines 138-140); otherwise the page is partitioned
and, when `has_more`, the loop continues with `starting_after` set to the
last element's `id` (line 157) — an access that is well-defined exactly
because this branch has a non-empty `data`. -/
def getInvoicesListGo (fetch : Option String → Page) :
    Nat → Option String → List PdfLink → List PdfLink →
    Option (List PdfLink × List PdfLink)
  | 0, _, _, _ => none
  | fuel + 1, cursor, paid, other =>
      let invoices := fetch cursor
      match invoices.data with
      | none => some (paid, other)
      | some [] => some (paid, other)
      | some (i :: rest) =>
          let acc := processPage (i :: rest) (paid, other)
          let next := (List.getLast (i :: rest) (List.cons_ne_nil i rest)).id
          if invoices.has_more then
            getInvoicesListGo fetch fuel (some next) acc.1 acc.2
          else some acc

/-- Whole-function entry point: both accumulators start empty and the first
call passes no `starting_after`. -/
def getInvoicesList (fetch : Option String → Page) (fuel : Nat) :
    Option (List PdfLink × List PdfLink) :=
  getInvoicesListGo fetch fuel none [] []

/-- Specification-side definition (the claim's words, not the code's): the
sequence of pages the provider hands back along the traversal that the loop
performs — same stopping conditions, same cursor chaining, same fuel — with
no partitioning.  Used to state that the loop's output is exactly a
partition of every invoice returned by any page. -/
def listedPages (fetch : Option String → Page) :
    Nat → Option String → Option (List (List Invoice))
  | 0, _ => none
  | fuel + 1, cursor =>
      match (fetch cursor).data with
      | none => some []
      | some [] => some []
      | some (i :: rest) =>
          if (fetch cursor).has_more then
            (listedPages fetch fuel
                (some ((List.getLast (i :: rest) (List.cons_ne_nil i rest)).id))).map
              (fun ps => (i :: rest) :: ps)
          else some [i :: rest]

/-! ## Resilient Fetcher (`downloadWithRetry`, lines 56-83)

One invoice's download is driven by two oracles: whether the link carries a
truthy URL (line 58 throws on a falsy `invoice_pdf`), and whether the
network fetch and stream write of attempt `k` succeed.  The function is
total and returns `(attempts made, file present)`: the `catch` on line 68
absorbs every error, so no error channel escapes to the caller. -/

/-- JavaScript truthiness of the optional `invoice_pdf` field (line 58):
`undefined`, `null` and the empty string are all falsy. -/
def urlTruthy : Option String → Bool
  | none => false
  | some s => decide (s ≠ "")

/-- Lines 56-81: attempt `attempt` (starting at 1); on failure retry while
`attempt <= 5` (line 70), else give up leaving the file absent. -/
def downloadWithRetry (hasUrl : Bool) (succeeds : Nat → Bool) (attempt : Nat) :
    Nat × Bool :=
  if hasUrl ∧ succeeds attempt then (attempt, true)
  else if attempt ≤ 5 then downloadWithRetry hasUrl succeeds (attempt + 1)
  else (attempt, false)
termination_by 6 - attempt

/-! ## Category download and merge (`downloadPdfs`, `mergePdfs`,
`processInvoices`, lines 47-122 and 167-192) -/

/-- Lines 47-95: stage a fresh scratch directory, run every link's
`downloadWithRetry` starting at attempt 1, then return the directory
listing — exactly the files whose download eventually succeeded, named
`{invoice_number}.pdf` (line 54).  `succeeds u k` abstracts whether link
`u`'s attempt `k` succeeds. -/
def downloadPdfs (succeeds : PdfLink → Nat → Bool) (urls : List PdfLink)
    (category : String) : List String :=
  (urls.filter (fun u => (downloadWithRetry (urlTruthy u.invoice_pdf) (succeeds u) 1).2)).map
    (fun u => "/tmp/" ++ category ++ "/" ++ u.invoice_number ++ ".pdf")

/-- Lines 97-113: fold over the input paths, appending every page of each
input file (in `getPageIndices` order) to the output document.  A PDF file
is its list of pages; `readFile` gives the pages stored at a path. -/
def mergePdfs (readFile : String → List Nat) (pdfPaths : List String) : List Nat :=
  pdfPaths.foldl (fun mergedPdf pdfPath => mergedPdf ++ readFile pdfPath) []

/-- Which consolidation ran for a category and, for a merge, the list of
input files handed to it (`createEmptyPdf`, lines 115-122, is the
placeholder). -/
inductive CategoryResult where
  | merged : List String → CategoryResult
  | placeholder : CategoryResult
deriving DecidableEq, Repr

/-- Lines 176-179: the deterministic output path
`/tmp/{KEY}-{CategoryName}-{MonthName}-{Year}.pdf`. -/
def outputPathFor (configKey name monthName : String) (year : Int) : String :=
  "/tmp/" ++ configKey.toUpper ++ "-" ++ name ++ "-" ++ monthName ++ "-" ++
    toString year ++ ".pdf"

/-- Lines 175-189: one iteration of the category loop — download-and-merge
when the link list is non-empty (line 181), placeholder otherwise. -/
def processCategory (succeeds : PdfLink → Nat → Bool) (configKey monthName : String)
    (year : Int) (name : String) (links : List PdfLink) : String × CategoryResult :=
  let outputPath := outputPathFor configKey name monthName year
  if links.length > 0 then
    (outputPath, .merged (downloadPdfs succeeds links (name.toLower ++ "_" ++ configKey)))
  else
    (outputPath, .placeholder)

/-- Lines 167-192: the two categories in fixed order, `Paid_And_Open` then
`Other_Status`. -/
def processInvoices (succeeds : PdfLink → Nat → Bool)
    (paidAndOpenLinks otherStatusLinks : List PdfLink)
    (configKey monthName : String) (year : Int) : List (String × CategoryResult) :=
  [processCategory succeeds configKey monthName year "Paid_And_Open" paidAndOpenLinks,
   processCategory succeeds configKey monthName year "Other_Status" otherStatusLinks]

/-- Lines 231-240: the orchestrator loop — for each configured account key
in configuration order, list and process its invoices and concatenate the
returned output paths.  `invoicesFor k` is the pair of category lists the
Lister produced for account `k`. -/
def allMergedPdfPaths (succeeds : PdfLink → Nat → Bool)
    (invoicesFor : String → List PdfLink × List PdfLink)
    (configKeys : List String) (monthName : String) (year : Int) : List String :=
  configKeys.foldl
    (fun acc k =>
      acc ++ (processInvoices succeeds (invoicesFor k).1 (invoicesFor k).2
                k monthName year).map Prod.fst)
    []

/-! ## Helper lemmas -/

/-- Folding append over a path list concatenates the files' page lists. -/
theorem foldl_append_pages (readFile : String → List Nat) :
    ∀ (ps : List String) (acc : List Nat),
      ps.foldl (fun m p => m ++ readFile p) acc = acc ++ (ps.map readFile).flatten
  | [], acc => by simp
  | p :: ps, acc => by
      simp [List.foldl_cons, foldl_append_pages readFile ps]

/-- The first component of a category's result is always its deterministic
output path, whichever branch ran. -/
theorem processCategory_fst (succeeds : PdfLink → Nat → Bool)
    (configKey monthName : String) (year : Int) (name : String)
    (links : List PdfLink) :
    (processCategory succeeds configKey monthName year name links).1 =
      outputPathFor configKey name monthName year := by
  simp only [processCategory]
  split <;> rfl

/-- One account contributes exactly its two category paths, in category
order. -/
theorem processInvoices_paths (succeeds : PdfLink → Nat → Bool)
    (p o : List PdfLink) (k mn : String) (y : Int) :
    (processInvoices succeeds p o k mn y).map Prod.fst =
      [outputPathFor k "Paid_And_Open" mn y, outputPathFor k "Other_Status" mn y] := by
  simp [processInvoices, processCategory_fst]

end StripePay

namespace StripePay

/-! ## Claim theorems -/

/-- C10: the handler's required-field check uses JavaScript truthiness, so a
request supplying `year`, `month` or `email` with a falsy-but-present value
(the number 0 or the empty string) receives the same 400 "required" response
as a request omitting the field, and the pipeline never starts. -/
theorem falsy_field_same_as_missing (year month email : JSVal)
    (h : truthy year = false ∨ truthy month = false ∨ truthy email = false) :
    handleRequest "POST" year month email = .missingFields ∧
    truthy (JSVal.vNum 0) = false ∧ truthy (JSVal.vStr "") = false ∧
    truthy JSVal.undef = false := by
  refine ⟨?_, by decide, by decide, rfl⟩
  unfold handleRequest
  rw [if_neg (by simp)]
  rw [if_pos]
  rcases h with h | h | h
  · exact Or.inl (by simp [h])
  · exact Or.inr (Or.inl (by simp [h]))
  · exact Or.inr (Or.inr (by simp [h]))

/-- Witness for C10 at a concrete input: `year` present as the number 0 is
answered exactly like an omitted field. -/
theorem falsy_field_same_as_missing_witness :
    handleRequest "POST" (JSVal.vNum 0) (JSVal.vStr "12") (JSVal.vStr "a@b.com") =
      .missingFields ∧
    truthy (JSVal.vNum 0) = false ∧ truthy (JSVal.vStr "") = false ∧
    truthy JSVal.undef = false :=
  falsy_field_same_as_missing (JSVal.vNum 0) (JSVal.vStr "12") (JSVal.vStr "a@b.com")
    (Or.inl (by decide))

/-- C7: a POST whose year or month is non-numeric (its `parseInt` is `NaN`)
gets the 400 "Invalid year or month" response and the pipeline never starts,
while no range check beyond `parseInt` exists: `month = "13"` passes
validation and the pipeline proceeds (with zero-indexed month 12). -/
theorem nonNumeric_rejected_month13_proceeds (year month email : JSVal)
    (hy : truthy year = true) (hm : truthy month = true) (he : truthy email = true) :
    ((parseIntJS year = none ∨ parseIntJS month = none) →
        handleRequest "POST" year month email = .invalidYearMonth) ∧
    handleRequest "POST" (JSVal.vStr "2024") (JSVal.vStr "13") (JSVal.vStr "u@e.com") =
      .pipelineStarted 2024 12 (JSVal.vStr "u@e.com") := by
  constructor
  · intro hnan
    unfold handleRequest
    rw [if_neg (by simp), if_neg (by simp [hy, hm, he])]
    cases hpy : parseIntJS year <;> cases hpm : parseIntJS month <;>
      first
        | rfl
        | (exfalso; rcases hnan with h | h <;> simp_all)
  · decide

/-- Witness for C7 at a concrete input: `year = "abc"` is truthy but
non-numeric and is rejected with the invalid-year-month 400. -/
theorem nonNumeric_rejected_month13_proceeds_witness :
    ((parseIntJS (JSVal.vStr "abc") = none ∨ parseIntJS (JSVal.vStr "12") = none) →
        handleRequest "POST" (JSVal.vStr "abc") (JSVal.vStr "12") (JSVal.vStr "a@b.com") =
          .invalidYearMonth) ∧
    handleRequest "POST" (JSVal.vStr "2024") (JSVal.vStr "13") (JSVal.vStr "u@e.com") =
      .pipelineStarted 2024 12 (JSVal.vStr "u@e.com") :=
  nonNumeric_rejected_month13_proceeds (JSVal.vStr "abc") (JSVal.vStr "12")
    (JSVal.vStr "a@b.com") (by decide) (by decide) (by decide)

/-- C5: for every non-empty ordered list of input paths, the merged output's
page sequence is the concatenation of each input file's pages in input-list
order, each file's internal page order preserved. -/
theorem mergePdfs_order_preserving (readFile : String → List Nat)
    (pdfPaths : List String) (_h : pdfPaths ≠ []) :
    mergePdfs readFile pdfPaths = (pdfPaths.map readFile).flatten := by
  simp [mergePdfs, foldl_append_pages]

/-- Witness for C5 at the spec's example: merging A (2 pages) then B
(1 page) yields exactly A's pages in order followed by B's page. -/
theorem mergePdfs_order_preserving_witness :
    mergePdfs (fun p => if p = "A" then [0, 1] else [2]) ["A", "B"] =
      ((["A", "B"].map (fun p => if p = "A" then [0, 1] else [2])).flatten) ∧
    mergePdfs (fun p => if p = "A" then [0, 1] else [2]) ["A", "B"] = [0, 1, 2] :=
  ⟨mergePdfs_order_preserving (fun p => if p = "A" then [0, 1] else [2]) ["A", "B"]
      (by decide),
    by decide⟩

/-- C1: within the Pipeline Orchestrator's category loop, the Placeholder
operation runs exactly when the category's Invoice Link list is empty; a
non-empty category hands the Merge operation the directory listing of the
files that actually landed on disk, so when every fetch of a non-empty
category fails, Merge receives the empty input list and no placeholder is
produced. -/
theorem placeholder_iff_no_links (succeeds : PdfLink → Nat → Bool)
    (configKey monthName : String) (year : Int) (name : String)
    (links : List PdfLink) :
    ((processCategory succeeds configKey monthName year name links).2 =
        CategoryResult.placeholder ↔ links = []) ∧
    (links ≠ [] →
      (processCategory succeeds configKey monthName year name links).2 =
        CategoryResult.merged
          (downloadPdfs succeeds links (name.toLower ++ "_" ++ configKey))) ∧
    ((∀ u ∈ links,
        (downloadWithRetry (urlTruthy u.invoice_pdf) (succeeds u) 1).2 = false) →
      links ≠ [] →
      (processCategory succeeds configKey monthName year name links).2 =
        CategoryResult.merged []) := by
  refine ⟨?_, ?_, ?_⟩
  · cases links with
    | nil => simp [processCategory]
    | cons a as => simp [processCategory]
  · intro h
    cases links with
    | nil => exact absurd rfl h
    | cons a as => simp [processCategory]
  · intro hall h
    cases links with
    | nil => exact absurd rfl h
    | cons a as =>
      simp only [processCategory, List.length_cons, gt_iff_lt, Nat.succ_pos,
        if_pos, downloadPdfs]
      have hf : (a :: as).filter
          (fun u => (downloadWithRetry (urlTruthy u.invoice_pdf) (succeeds u) 1).2) = [] := by
        rw [List.filter_eq_nil_iff]
        intro u hu
        simp [hall u hu]
      rw [hf]
      rfl

/-- Witness for C1 at a concrete input: one link whose every download
attempt fails yields a Merge call on the empty file list, not a
placeholder. -/
theorem placeholder_iff_no_links_witness :
    ((processCategory (fun _ _ => false) "acct" "March" 2024 "Paid_And_Open"
        [⟨some "http://x", "42", 0, 0⟩]).2 = CategoryResult.placeholder ↔
      [(⟨some "http://x", "42", 0, 0⟩ : PdfLink)] = []) ∧
    ([(⟨some "http://x", "42", 0, 0⟩ : PdfLink)] ≠ [] →
      (processCategory (fun _ _ => false) "acct" "March" 2024 "Paid_And_Open"
        [⟨some "http://x", "42", 0, 0⟩]).2 =
        CategoryResult.merged
          (downloadPdfs (fun _ _ => false) [⟨some "http://x", "42", 0, 0⟩]
            ("Paid_And_Open".toLower ++ "_" ++ "acct"))) ∧
    ((∀ u ∈ [(⟨some "http://x", "42", 0, 0⟩ : PdfLink)],
        (downloadWithRetry (urlTruthy u.invoice_pdf) ((fun _ _ => false) u) 1).2 = false) →
      [(⟨some "http://x", "42", 0, 0⟩ : PdfLink)] ≠ [] →
      (processCategory (fun _ _ => false) "acct" "March" 2024 "Paid_And_Open"
        [⟨some "http://x", "42", 0, 0⟩]).2 = CategoryResult.merged []) :=
  placeholder_iff_no_links (fun _ _ => false) "acct" "March" 2024 "Paid_And_Open"
    [⟨some "http://x", "42", 0, 0⟩]

/-- The orchestrator's fold, with any starting accumulator, appends the two
category paths of every account key in configuration order. -/
theorem allMergedPdfPaths_foldl (succeeds : PdfLink → Nat → Bool)
    (invoicesFor : String → List PdfLink × List PdfLink) (mn : String) (y : Int) :
    ∀ (keys : List String) (acc : List String),
      keys.foldl
        (fun acc k =>
          acc ++ (processInvoices succeeds (invoicesFor k).1 (invoicesFor k).2
                    k mn y).map Prod.fst) acc =
        acc ++ keys.flatMap (fun k =>
          [outputPathFor k "Paid_And_Open" mn y, outputPathFor k "Other_Status" mn y])
  | [], acc => by simp
  | k :: ks, acc => by
      rw [List.foldl_cons, allMergedPdfPaths_foldl succeeds invoicesFor mn y ks,
        processInvoices_paths, List.flatMap_cons]
      simp

/-- C2: for every set of configured accounts and any invoice data (including
none), the orchestrator returns exactly two output paths per configured
account, in account-configuration order, each account's paid-or-open path
preceding its other-status path — `2 × (number of accounts)` paths in all. -/
theorem orchestrator_two_paths_per_account (succeeds : PdfLink → Nat → Bool)
    (invoicesFor : String → List PdfLink × List PdfLink)
    (configKeys : List String) (monthName : String) (year : Int) :
    allMergedPdfPaths succeeds invoicesFor configKeys monthName year =
      configKeys.flatMap (fun k =>
        [outputPathFor k "Paid_And_Open" monthName year,
         outputPathFor k "Other_Status" monthName year]) ∧
    (allMergedPdfPaths succeeds invoicesFor configKeys monthName year).length =
      2 * configKeys.length := by
  have h1 := allMergedPdfPaths_foldl succeeds invoicesFor monthName year configKeys []
  have h2 : allMergedPdfPaths succeeds invoicesFor configKeys monthName year =
      configKeys.flatMap (fun k =>
        [outputPathFor k "Paid_And_Open" monthName year,
         outputPathFor k "Other_Status" monthName year]) := by
    simpa [allMergedPdfPaths] using h1
  refine ⟨h2, ?_⟩
  rw [h2]
  clear h1 h2
  induction configKeys with
  | nil => rfl
  | cons k ks ih =>
      rw [List.flatMap_cons, List.length_append, ih]
      simp only [List.length_cons, List.length_nil]
      omega

/-- If every attempt up to the retry cap fails, `downloadWithRetry` stops at
attempt 6 with the file absent; the attempt counter never exceeds 6; a falsy
URL behaves like any other failure. -/
theorem downloadWithRetry_aux (hasUrl : Bool) (succeeds : Nat → Bool) :
    ∀ (n a : Nat), 6 - a ≤ n → 1 ≤ a → a ≤ 6 →
      (downloadWithRetry hasUrl succeeds a).1 ≤ 6 ∧
      ((downloadWithRetry hasUrl succeeds a).2 = false →
        (downloadWithRetry hasUrl succeeds a).1 = 6) ∧
      (hasUrl = false → downloadWithRetry hasUrl succeeds a = (6, false)) := by
  intro n
  induction n with
  | zero =>
    intro a h1 h2 h3
    have ha : a = 6 := by omega
    subst ha
    rw [downloadWithRetry]
    split_ifs with hc h5
    · refine ⟨by norm_num, by simp, ?_⟩
      intro hfalse
      rw [hfalse] at hc
      simp at hc
    · exact absurd h5 (by omega)
    · exact ⟨by norm_num, fun _ => rfl, fun _ => rfl⟩
  | succ n ih =>
    intro a h1 h2 h3
    by_cases ha : a = 6
    · subst ha
      rw [downloadWithRetry]
      split_ifs with hc h5
      · refine ⟨by norm_num, by simp, ?_⟩
        intro hfalse
        rw [hfalse] at hc
        simp at hc
      · exact absurd h5 (by omega)
      · exact ⟨by norm_num, fun _ => rfl, fun _ => rfl⟩
    · have ha5 : a ≤ 5 := by omega
      rw [downloadWithRetry]
      split_ifs with hc
      · refine ⟨by simpa using h3, by simp, ?_⟩
        intro hfalse
        rw [hfalse] at hc
        simp at hc
      · exact ih (a + 1) (by omega) (by omega) (by omega)

/-- C3: starting from the initial call (attempt 1), the Resilient Fetcher
makes at most 6 attempts; when the file ends up absent it made exactly 6
(the initial attempt plus 5 retries); a missing source URL is retried and
abandoned like any other failure; and the function returns normally in every
case — its type has no error channel, so no fetch failure propagates. -/
theorem fetcher_six_attempts_absorbs_failure (hasUrl : Bool)
    (succeeds : Nat → Bool) :
    (downloadWithRetry hasUrl succeeds 1).1 ≤ 6 ∧
    ((downloadWithRetry hasUrl succeeds 1).2 = false →
      (downloadWithRetry hasUrl succeeds 1).1 = 6) ∧
    (hasUrl = false → downloadWithRetry hasUrl succeeds 1 = (6, false)) :=
  downloadWithRetry_aux hasUrl succeeds 5 1 (by omega) (by omega) (by omega)

/-- Witness for C3 at a concrete input: a link with a missing URL is
abandoned after 6 attempts with the file absent. -/
theorem fetcher_six_attempts_absorbs_failure_witness :
    downloadWithRetry false (fun _ => false) 1 = (6, false) :=
  (fetcher_six_attempts_absorbs_failure false (fun _ => false)).2.2 rfl

/-- C9: in the Invoice Lister's pagination loop a page with missing or empty
`data` ends pagination immediately — with any remaining fuel and even when
the provider still reports `has_more` — so the last-element cursor access
(taken only in the non-empty branch, where it carries a non-emptiness proof)
never touches an empty array, and the loop cannot spin on empty pages. -/
theorem pagination_stops_on_empty_page (fetch : Option String → Page)
    (fuel : Nat) (cursor : Option String) (paid other : List PdfLink)
    (h : (fetch cursor).data = none ∨ (fetch cursor).data = some []) :
    getInvoicesListGo fetch (fuel + 1) cursor paid other = some (paid, other) := by
  rcases h with h | h <;> simp [getInvoicesListGo, h]

/-- Witness for C9 at a concrete input: a provider that always answers an
empty page with `has_more = true` still terminates after the first fetch. -/
theorem pagination_stops_on_empty_page_witness :
    getInvoicesListGo (fun _ => ⟨some [], true⟩) 1 none [] [] = some ([], []) :=
  pagination_stops_on_empty_page (fun _ => ⟨some [], true⟩) 0 none [] [] (Or.inr rfl)

/-- The per-page `forEach` is the order-preserving partition of the page by
status: the paid-or-open invoices, in page order, extend the first list and
the rest, in page order, extend the second. -/
theorem processPage_eq : ∀ (l : List Invoice) (paid other : List PdfLink),
    processPage l (paid, other) =
      (paid ++ (l.filter isPaidOrOpen).map mkPdfLink,
       other ++ (l.filter (fun i => ! isPaidOrOpen i)).map mkPdfLink)
  | [], paid, other => by simp [processPage]
  | i :: rest, paid, other => by
      by_cases h : isPaidOrOpen i = true
      · simp [processPage, h, processPage_eq rest]
      · simp [processPage, h, processPage_eq rest,
          Bool.not_eq_true _ ▸ h]

/-- C4: whenever the pagination loop completes having been handed the pages
`ps` (the traversal trace `listedPages`), its two outputs extend the
accumulators with exactly the status-partition of every invoice of every
page: an invoice lands in the paid-or-open list iff its status is "paid" or
"open", otherwise in the other-status list, and each list keeps provider
order. -/
theorem lister_partitions_every_invoice (fetch : Option String → Page) :
    ∀ (fuel : Nat) (cursor : Option String) (paid other : List PdfLink)
      (ps : List (List Invoice)),
      listedPages fetch fuel cursor = some ps →
      getInvoicesListGo fetch fuel cursor paid other =
        some (paid ++ (ps.flatten.filter isPaidOrOpen).map mkPdfLink,
              other ++ (ps.flatten.filter (fun i => ! isPaidOrOpen i)).map mkPdfLink)
  | 0, cursor, paid, other, ps => by simp [listedPages]
  | fuel + 1, cursor, paid, other, ps => by
      intro h
      cases hd : (fetch cursor).data with
      | none =>
          simp [listedPages, hd] at h
          subst h
          simp [getInvoicesListGo, hd]
      | some l =>
          cases l with
          | nil =>
              simp [listedPages, hd] at h
              subst h
              simp [getInvoicesListGo, hd]
          | cons i rest =>
              cases hm : (fetch cursor).has_more with
              | true =>
                  rw [listedPages, hd] at h
                  simp only [hm, reduceIte] at h
                  obtain ⟨ps', hps', hcons⟩ := Option.map_eq_some'.mp h
                  subst hcons
                  rw [getInvoicesListGo, hd]
                  simp only [hm, reduceIte, processPage_eq]
                  rw [lister_partitions_every_invoice fetch fuel _ _ _ ps' hps']
                  simp only [List.flatten_cons, List.filter_append, List.map_append,
                    List.append_assoc]
              | false =>
                  rw [listedPages, hd] at h
                  simp only [hm, Bool.false_eq_true, reduceIte] at h
                  obtain rfl : ps = [i :: rest] := (Option.some_inj.mp h).symm
                  rw [getInvoicesListGo, hd]
                  simp only [hm, Bool.false_eq_true, reduceIte, processPage_eq]
                  simp

/-- Witness for C4 at a concrete input: two pages — a "paid" and a "draft"
invoice on the first, an "open" invoice on the second — are partitioned into
the paid-or-open pair and the draft singleton, in provider order. -/
theorem lister_partitions_every_invoice_witness :
    getInvoicesListGo
      (fun c =>
        if c = none then
          Page.mk (some [Invoice.mk "in_1" "1001" "paid" (some "http://a") 5 0,
                         Invoice.mk "in_2" "1002" "draft" none 0 7]) true
        else Page.mk (some [Invoice.mk "in_3" "1003" "open" (some "http://c") 0 9]) false)
      2 none [] [] =
      some ([PdfLink.mk (some "http://a") "1001" 5 0,
             PdfLink.mk (some "http://c") "1003" 0 9],
            [PdfLink.mk none "1002" 0 7]) :=
  (lister_partitions_every_invoice
      (fun c =>
        if c = none then
          Page.mk (some [Invoice.mk "in_1" "1001" "paid" (some "http://a") 5 0,
                         Invoice.mk "in_2" "1002" "draft" none 0 7]) true
        else Page.mk (some [Invoice.mk "in_3" "1003" "open" (some "http://c") 0 9]) false)
      2 none [] []
      [[Invoice.mk "in_1" "1001" "paid" (some "http://a") 5 0,
        Invoice.mk "in_2" "1002" "draft" none 0 7],
       [Invoice.mk "in_3" "1003" "open" (some "http://c") 0 9]]
      (by decide)).trans (by decide)

/-- The `forEach` over a directory listing never throws: `clearDirectory` is
only ever re-entered on subdirectory states, and `readdirSync` throws only
on files.  Proved by strong induction on the size of the listing. -/
theorem clearLoop_never_errors :
    ∀ (n : Nat) (l : List (String × FsEntry)), sizeOf l ≤ n →
      ∃ r, clearLoop l = .ok r := by
  intro n
  induction n with
  | zero =>
    intro l hl
    cases l with
    | nil => exact ⟨[], by rw [clearLoop]⟩
    | cons a as => simp at hl
  | succ n ih =>
    intro l hl
    cases l with
    | nil => exact ⟨[], by rw [clearLoop]⟩
    | cons a as =>
      obtain ⟨nm, e⟩ := a
      cases e with
      | file c =>
        obtain ⟨r, hr⟩ := ih as (by simp at hl ⊢; omega)
        exact ⟨r, by rw [clearLoop, hr]⟩
      | dir cs =>
        obtain ⟨rc, hrc⟩ := ih cs (by simp at hl ⊢; omega)
        obtain ⟨rr, hrr⟩ := ih as (by simp at hl ⊢; omega)
        have hdir : clearDirectory (some (.dir cs)) = .ok (some (.dir [])) := by
          rw [clearDirectory, hrc]
        exact ⟨(nm, .dir []) :: rr, by rw [clearLoop, hdir, hrr]⟩

/-- C8: whatever the prior state of the target path — absent, an empty
directory, or a directory holding files and nested subdirectories — the
Directory Stager returns normally leaving the path an existing empty
directory, and running it again immediately reproduces the same
empty-directory state.  (The one state outside the claim's scope, the path
being a plain file, makes `readdirSync` throw.) -/
theorem clearDirectory_leaves_empty_dir (s : Option FsEntry)
    (h : ∀ c, s ≠ some (.file c)) :
    clearDirectory s = .ok (some (.dir [])) ∧
    clearDirectory (some (.dir [])) = .ok (some (.dir [])) := by
  have hempty : clearDirectory (some (FsEntry.dir [])) = .ok (some (.dir [])) := by
    obtain ⟨r, hr⟩ := clearLoop_never_errors (sizeOf ([] : List (String × FsEntry))) [] le_rfl
    rw [clearDirectory, hr]
  refine ⟨?_, hempty⟩
  cases s with
  | none => rw [clearDirectory]
  | some e =>
    cases e with
    | file c => exact absurd rfl (h c)
    | dir cs =>
      obtain ⟨r, hr⟩ := clearLoop_never_errors (sizeOf cs) cs le_rfl
      rw [clearDirectory, hr]

/-- Witness for C8 at a concrete input: a directory holding a file and a
nested non-empty subdirectory is cleared to an existing empty directory, and
clearing again keeps it so. -/
theorem clearDirectory_leaves_empty_dir_witness :
    clearDirectory
        (some (.dir [("a.pdf", .file 1), ("sub", .dir [("b.pdf", .file 2)])])) =
      .ok (some (.dir [])) ∧
    clearDirectory (some (.dir [])) = .ok (some (.dir [])) :=
  clearDirectory_leaves_empty_dir
    (some (.dir [("a.pdf", .file 1), ("sub", .dir [("b.pdf", .file 2)])]))
    (by intro c; simp)

/-- C6 counterexample: the claim fails as stated.  For the valid pair
(year 50, month 1) — month within 1..12 — the computed `startDate` is not
the first second of January of year 50: ECMA-262's `Date` constructor reads
a year in 0..99 as 1900 + year, so the code computes the range for January
1950 instead (shown in the second conjunct; server time zone UTC). -/
theorem dateRange_twoDigitYear_counterexample :
    startDate 0 50 (1 - 1) ≠ localCivilSec 0 50 1 1 0 0 0 ∧
    startDate 0 50 (1 - 1) = localCivilSec 0 1950 1 1 0 0 0 := by
  constructor <;> decide

set_option maxHeartbeats 2000000 in
/-- C6 (amended): for every (year, month) pair with month between 1 and 12
and the year outside JavaScript's two-digit range 0..99, and for every fixed
local-offset time zone, the computed `[startDate, endDate]` range covers
exactly the month, inclusive: `startDate` is the epoch second at which local
time reads the first second of day 1, and `endDate` the second at which it
reads 23:59:59 of the month's last day. -/
theorem dateRange_covers_month (tz y m : Int) (h1 : 1 ≤ m) (h2 : m ≤ 12)
    (hy : y < 0 ∨ 100 ≤ y) :
    startDate tz y (m - 1) = localCivilSec tz y m 1 0 0 0 ∧
    endDate tz y (m - 1) = localCivilSec tz y m (daysInMonth y m) 23 59 59 := by
  interval_cases m <;>
  · constructor <;>
    · simp only [startDate, endDate, jsGetTime, jsDateLocalMs, jsMakeDay,
        daysFromCivil, localCivilSec, daysInMonth]
      norm_num
      split_ifs <;> omega

/-- Witness for the amended C6 at a concrete input: March 2024, UTC server —
the range runs from the first second of 2024-03-01 to 23:59:59 of
2024-03-31. -/
theorem dateRange_covers_month_witness :
    startDate 0 2024 (3 - 1) = localCivilSec 0 2024 3 1 0 0 0 ∧
    endDate 0 2024 (3 - 1) = localCivilSec 0 2024 3 (daysInMonth 2024 3) 23 59 59 :=
  dateRange_covers_month 0 2024 3 (by decide) (by decide) (Or.inr (by decide))

end StripePay
